import Mathlib

/-!
Shallow embedding of `src/air_data/stackoverflow_analyzer.py` (class
`StackOverflowAnalyzer`): the star-schema construction `_create_star_schema`
and the query operations `get_survey_structure`, `search_questions`,
`create_respondent_subset` and `get_answer_distribution`.

The two raw CSV tables are modelled as already-loaded tables (CSV parsing is
out of scope): a schema row carries `column`, `question_text`, `type`; a data
row maps column names to nullable string values.  SQL `NULL` is `Option.none`;
`ROW_NUMBER() OVER ()` is modelled as 1-based numbering in table order, the
deterministic order DuckDB produces for a plain scan of an in-memory table.

User-supplied strings (search terms, column and option arguments) are pasted
by the source into SQL text between single quotes via f-strings.  A value
whose quotes are all doubled stays one literal (with `''` collapsing to `'`);
a lone quote ends the literal early and the remaining text almost always makes
the statement ill-formed, so DuckDB raises.  `sqlLit` models this: it returns
the effective literal, or `none` for the lone-quote case, which the query
functions surface as `Except.error` (the embedded image of the raised
exception).
-/

namespace AirData

/-- A raw respondent row of `so_data`: association list from column name to
nullable value.  A column absent from the list reads as SQL `NULL`. -/
abbrev RawRow := List (String × Option String)

/-- Value of a column in a raw row (`NULL` when absent or stored as `none`). -/
def getCol (r : RawRow) (c : String) : Option String :=
  (List.lookup c r).join

/-- A row of the raw `so_schema` table. -/
structure RawSchemaRow where
  column : String
  question_text : String
  type : String
deriving DecidableEq, Repr

/-- The two raw tables the analyzer is constructed from: the schema rows in
file order, the list of columns of `so_data`, and the data rows in file
order. -/
structure Config where
  schema : List RawSchemaRow
  dataCols : List String
  rows : List RawRow
deriving DecidableEq, Repr

/-- 1-based numbering of a list, the model of `ROW_NUMBER() OVER ()`. -/
def numberFrom (n : Nat) : List α → List (Nat × α)
  | [] => []
  | a :: as => (n, a) :: numberFrom (n + 1) as

/-- A row of `dim_questions`. -/
structure Question where
  question_id : Nat
  column_name : String
  question_text : String
  type : String
deriving DecidableEq, Repr

/-- `dim_questions`: `ROW_NUMBER() OVER ()` over `so_schema`, projecting
`column` to `column_name`, `question_text` and `type`. -/
def dimQuestions (cfg : Config) : List Question :=
  (numberFrom 1 cfg.schema).map fun p =>
    { question_id := p.1
      column_name := p.2.column
      question_text := p.2.question_text
      type := p.2.type }

/-- The hardcoded demographic column list of `_create_star_schema`. -/
def demographicColumnNames : List String :=
  ["MainBranch", "Age", "RemoteWork", "EdLevel", "YearsCode",
   "YearsCodePro", "DevType", "Country"]

/-- `demographic_columns`: SC questions whose column name is in the hardcoded
demographic list, in `dim_questions` order. -/
def demographic_columns (cfg : Config) : List String :=
  ((dimQuestions cfg).filter fun q =>
    q.type == "SC" && demographicColumnNames.contains q.column_name).map
    (·.column_name)

/-- A row of `dim_respondents`. -/
structure Respondent where
  respondent_id : Nat
  demographics : List (String × Option String)
deriving DecidableEq, Repr

/-- `dim_respondents`: `ROW_NUMBER() OVER ()` over `so_data` plus the
demographic columns. -/
def dimRespondents (cfg : Config) : List Respondent :=
  (numberFrom 1 cfg.rows).map fun p =>
    { respondent_id := p.1
      demographics := (demographic_columns cfg).map fun c => (c, getCol p.2 c) }

/-- A row of `fact_responses_sc` or `fact_responses_mc`. -/
structure FactRow where
  respondent_id : Nat
  question_id : Nat
  response : String
deriving DecidableEq, Repr

/-- The `CASE` expression of the SC insert: `NULL` and the empty string are
stored as the literal string `NA`; any other value is stored unchanged. -/
def naEncode (v : Option String) : String :=
  match v with
  | none => "NA"
  | some s => if s == "" then "NA" else s

/-- The SC questions, in `dim_questions` order. -/
def sc_questions (cfg : Config) : List Question :=
  (dimQuestions cfg).filter fun q => q.type == "SC"

/-- The MC questions, in `dim_questions` order. -/
def mc_questions (cfg : Config) : List Question :=
  (dimQuestions cfg).filter fun q => q.type == "MC"

/-- `fact_responses_sc`: for each SC question whose column exists in the data,
one row per `so_data` row, numbered by `ROW_NUMBER() OVER ()` over the whole
table, with `naEncode` applied to the raw value. -/
def fact_responses_sc (cfg : Config) : List FactRow :=
  (sc_questions cfg).flatMap fun q =>
    if q.column_name ∈ cfg.dataCols then
      (numberFrom 1 cfg.rows).map fun p =>
        { respondent_id := p.1
          question_id := q.question_id
          response := naEncode (getCol p.2 q.column_name) }
    else []

/-- The `mc_data` CTE body: the raw values of a column that are neither
`NULL` nor the empty string, in table order.  `ROW_NUMBER() OVER ()` is
applied to this *filtered* list in the source. -/
def mcNonNull (cfg : Config) (col : String) : List String :=
  cfg.rows.filterMap fun r =>
    match getCol r col with
    | none => none
    | some s => if s == "" then none else some s

/-- DuckDB `string_split` on a separator character, over character lists. -/
def splitChars (sep : Char) (acc : List Char) : List Char → List (List Char)
  | [] => [acc.reverse]
  | c :: cs =>
    if c = sep then acc.reverse :: splitChars sep [] cs
    else splitChars sep (c :: acc) cs

/-- DuckDB `string_split(s, sep)` for strings (kernel-reducible, unlike
`String.splitOn`). -/
def stringSplit (s : String) (sep : Char) : List String :=
  (splitChars sep [] s.data).map String.mk

/-- The semicolon, the multi-choice delimiter. -/
def semicolonChar : Char := Char.ofNat 59

/-- `fact_responses_mc`: for each MC question whose column exists in the data,
number the non-`NULL`, non-empty raw values (after filtering, as in the
source's CTE) and emit one row per piece of `string_split(value, ';')`,
with no trimming and no discarding of pieces. -/
def fact_responses_mc (cfg : Config) : List FactRow :=
  (mc_questions cfg).flatMap fun q =>
    if q.column_name ∈ cfg.dataCols then
      (numberFrom 1 (mcNonNull cfg q.column_name)).flatMap fun p =>
        (stringSplit p.2 semicolonChar).map fun piece =>
          { respondent_id := p.1
            question_id := q.question_id
            response := piece }
    else []

/-- The tables `_create_star_schema` creates (its four `CREATE TABLE`
statements). -/
def star_schema_tables : List String :=
  ["dim_questions", "dim_respondents", "fact_responses_sc", "fact_responses_mc"]

/-- The columns of `fact_responses_sc` (its `CREATE TABLE` statement). -/
def fact_responses_sc_columns : List String :=
  ["respondent_id", "question_id", "response"]

/-- The columns of `fact_responses_mc` (its `CREATE TABLE` statement). -/
def fact_responses_mc_columns : List String :=
  ["respondent_id", "question_id", "response"]

/-! ### SQL string interpolation and `ILIKE` -/

/-- The single-quote character, written by code point to keep the development
free of quote literals. -/
def quoteChar : Char := Char.ofNat 39

/-- Reading a string that the source pastes between single quotes in an SQL
statement: a doubled quote collapses to one quote character; a lone quote
terminates the literal early, leaving trailing text that makes the statement
ill-formed, which DuckDB rejects (modelled as `none`). -/
def sqlInterp : List Char → Option (List Char)
  | [] => some []
  | [c] => if c = quoteChar then none else some [c]
  | c :: c2 :: cs =>
    if c = quoteChar then
      if c2 = quoteChar then (sqlInterp cs).map (quoteChar :: ·)
      else none
    else (sqlInterp (c2 :: cs)).map (c :: ·)

/-- The effective value of an f-string argument interpolated into a
single-quoted SQL literal, or `none` when the statement becomes ill-formed. -/
def sqlLit (s : String) : Option String :=
  (sqlInterp s.data).map String.mk

/-- The percent character (the SQL `LIKE` many-characters wildcard). -/
def percentChar : Char := Char.ofNat 37

/-- The underscore character (the SQL `LIKE` one-character wildcard). -/
def underscoreChar : Char := Char.ofNat 95

/-- Does `f` hold of some suffix of the list (the list itself included)? -/
def anySuffix (f : List Char → Bool) : List Char → Bool
  | [] => f []
  | c :: cs => f (c :: cs) || anySuffix f cs

/-- SQL `LIKE` pattern matching over character lists: `%` matches any
sequence (the rest of the pattern must match some suffix), `_` any single
character, anything else itself. -/
def likeMatch : List Char → List Char → Bool
  | [], s => s.isEmpty
  | p :: ps, s =>
    if p = percentChar then anySuffix (likeMatch ps) s
    else
      match s with
      | [] => false
      | c :: cs =>
        if p = underscoreChar then likeMatch ps cs
        else p = c && likeMatch ps cs

/-- SQL `ILIKE`: case-insensitive `LIKE`, modelled by lower-casing both the
pattern and the subject. -/
def ilike (s : String) (pat : String) : Bool :=
  likeMatch (pat.data.map Char.toLower) (s.data.map Char.toLower)

/-- The pattern `'%{term}%'` the source builds around a search term. -/
def likePat (term : String) : String := "%" ++ term ++ "%"

/-! ### An executable model of `ORDER BY`

Insertion sort on a boolean comparator: structurally recursive, so concrete
results reduce inside the kernel.  A stable total-preorder sort is a faithful
model of `ORDER BY` up to the order of ties, which SQL leaves unspecified. -/

/-- Insert an element in front of the first element it compares `le` to. -/
def insertLe (le : α → α → Bool) (a : α) : List α → List α
  | [] => [a]
  | b :: bs => if le a b then a :: b :: bs else b :: insertLe le a bs

/-- Insertion sort by a boolean comparator. -/
def sortLe (le : α → α → Bool) : List α → List α
  | [] => []
  | a :: as => insertLe le a (sortLe le as)

/-- Decidable equality for `Except`, so that concrete query results can be
checked by `decide`. -/
instance {ε α : Type _} [DecidableEq ε] [DecidableEq α] :
    DecidableEq (Except ε α) := fun x y =>
  match x, y with
  | Except.ok a, Except.ok b =>
      if h : a = b then Decidable.isTrue (h ▸ rfl)
      else Decidable.isFalse (fun hc => h (Except.ok.inj hc))
  | Except.error e, Except.error f =>
      if h : e = f then Decidable.isTrue (h ▸ rfl)
      else Decidable.isFalse (fun hc => h (Except.error.inj hc))
  | Except.ok _, Except.error _ => Decidable.isFalse (fun hc => Except.noConfusion hc)
  | Except.error _, Except.ok _ => Decidable.isFalse (fun hc => Except.noConfusion hc)

/-! ### Query operations -/

/-- A row of the `get_survey_structure` result. -/
structure StructureRow where
  column : String
  question_text : String
  type : String
deriving DecidableEq, Repr

/-- The result columns of `get_survey_structure` (its `SELECT` clause). -/
def get_survey_structure_columns : List String :=
  ["column", "question_text", "type"]

/-- `get_survey_structure` with `sort_by` omitted: all questions, projected to
`(column, question_text, type)`, `ORDER BY question_id`. -/
def get_survey_structure (cfg : Config) : List StructureRow :=
  (sortLe (fun a b => decide (a.question_id ≤ b.question_id))
      (dimQuestions cfg)).map fun q =>
    { column := q.column_name
      question_text := q.question_text
      type := q.type }

/-- A row of the `search_questions` result. -/
structure SearchRow where
  column : String
  question_text : String
  type : String
  match_type : String
deriving DecidableEq, Repr

/-- The result columns of `search_questions` (its `SELECT` clauses). -/
def search_questions_columns : List String :=
  ["column", "question_text", "type", "match_type"]

/-- The question row emitted for a matching question. -/
def searchRowOf (q : Question) (mt : String) : SearchRow :=
  { column := q.column_name
    question_text := q.question_text
    type := q.type
    match_type := mt }

/-- The `questions_query` subquery: questions whose text or column name
matches the pattern, with `match_type` `question`. -/
def searchQuestionRows (cfg : Config) (pat : String) : List SearchRow :=
  ((dimQuestions cfg).filter fun q =>
    ilike q.question_text pat || ilike q.column_name pat).map
    fun q => searchRowOf q "question"

/-- The `sc_answers_query` subquery: the fact–dimension join grouped per
question, i.e. the questions having some stored SC response matching the
pattern, with `match_type` `answer`. -/
def searchScAnswerRows (cfg : Config) (pat : String) : List SearchRow :=
  ((dimQuestions cfg).filter fun q =>
    (fact_responses_sc cfg).any fun f =>
      f.question_id == q.question_id && ilike f.response pat).map
    fun q => searchRowOf q "answer"

/-- The `mc_answers_query` subquery, likewise over the MC fact table. -/
def searchMcAnswerRows (cfg : Config) (pat : String) : List SearchRow :=
  ((dimQuestions cfg).filter fun q =>
    (fact_responses_mc cfg).any fun f =>
      f.question_id == q.question_id && ilike f.response pat).map
    fun q => searchRowOf q "answer"

/-- `search_questions`: the term is pasted into `ILIKE '%term%'` patterns.
The three subqueries are combined with `UNION` (which removes duplicates)
and sorted with `ORDER BY "column"`. -/
def search_questions (cfg : Config) (search_term : String) :
    Except String (List SearchRow) :=
  (sqlLit search_term).elim (Except.error "Parser Error") fun termv =>
    let pat := likePat termv
    Except.ok (sortLe (fun a b => decide (a.column.data ≤ b.column.data))
      (searchQuestionRows cfg pat ++ searchScAnswerRows cfg pat ++
        searchMcAnswerRows cfg pat).dedup)

/-- A row of the `create_respondent_subset` / `get_answer_distribution`
results. -/
structure DistRow where
  option : String
  count : Nat
  percentage : ℚ
deriving DecidableEq, Repr

/-- The result columns of both aggregate operations (their `SELECT` clauses
and the empty-`DataFrame` early returns). -/
def distribution_columns : List String :=
  ["option", "count", "percentage"]

/-- `GROUP BY response` with `COUNT(*)` and
`COUNT(*) * 100.0 / (SELECT COUNT(*) FROM <denomRows>)`, then
`ORDER BY count DESC`.  `100.0` and the division are modelled exactly in `ℚ`
(written with `Rat.divInt` so that concrete results reduce in the kernel;
`Rat.divInt_eq_div` recovers ordinary field division). -/
def distRows (rows denomRows : List FactRow) : List DistRow :=
  let vals := rows.map (·.response)
  sortLe (fun a b => decide (b.count ≤ a.count))
    (vals.dedup.map fun v =>
      { option := v
        count := vals.count v
        percentage := Rat.divInt ((vals.count v : Int) * 100) (denomRows.length : Int) })

/-- `get_answer_distribution`: resolve the column to a question (first match;
unknown columns give an empty result), then group responses.  For SC the rows
with sentinel response `NA` are excluded and the denominator is the non-`NA`
row count; for MC all rows for the question are grouped and counted, the
`NA` rows included.  Unsupported types give an empty result. -/
def get_answer_distribution (cfg : Config) (column : String) :
    Except String (List DistRow) :=
  (sqlLit column).elim (Except.error "Parser Error") fun colv =>
    ((dimQuestions cfg).find? (fun q => q.column_name == colv)).elim
      (Except.ok []) fun q =>
      if q.type == "SC" then
        let rows := (fact_responses_sc cfg).filter fun f =>
          f.question_id == q.question_id && f.response != "NA"
        Except.ok (distRows rows rows)
      else if q.type == "MC" then
        let rows := (fact_responses_mc cfg).filter fun f =>
          f.question_id == q.question_id
        Except.ok (distRows rows rows)
      else Except.ok []

/-- `create_respondent_subset`: despite the name, an aggregate query.  After
resolving the column (unknown gives an empty result, before the option is ever
interpolated), the SC branch with a non-empty option groups the rows whose
response equals the option exactly, against the non-`NA` denominator; with an
empty option it equals the SC distribution.  The MC branch with a non-empty
option restricts to the respondents having a row equal to the option and
groups all their rows for the question; with an empty option it equals the MC
distribution.  Other types give an empty result. -/
def create_respondent_subset (cfg : Config) (column option : String) :
    Except String (List DistRow) :=
  (sqlLit column).elim (Except.error "Parser Error") fun colv =>
    ((dimQuestions cfg).find? (fun q => q.column_name == colv)).elim
      (Except.ok []) fun q =>
      if q.type == "SC" then
        let nonNa := (fact_responses_sc cfg).filter fun f =>
          f.question_id == q.question_id && f.response != "NA"
        if option == "" then Except.ok (distRows nonNa nonNa)
        else
          (sqlLit option).elim (Except.error "Parser Error") fun optv =>
            let rows := (fact_responses_sc cfg).filter fun f =>
              f.question_id == q.question_id && f.response == optv
            Except.ok (distRows rows nonNa)
      else if q.type == "MC" then
        let qrows := (fact_responses_mc cfg).filter fun f =>
          f.question_id == q.question_id
        if option == "" then Except.ok (distRows qrows qrows)
        else
          (sqlLit option).elim (Except.error "Parser Error") fun optv =>
            let rids : List Nat := ((fact_responses_mc cfg).filter fun f =>
              f.question_id == q.question_id && f.response == optv).map
                (·.respondent_id) |>.dedup
            let rows := (fact_responses_mc cfg).filter fun f =>
              f.question_id == q.question_id && decide (f.respondent_id ∈ rids)
            Except.ok (distRows rows rows)
      else Except.ok []

/-! ### Helper lemmas -/

theorem numberFrom_fst_bounds {n : Nat} {l : List α} {p : Nat × α}
    (hp : p ∈ numberFrom n l) : n ≤ p.1 ∧ p.1 < n + l.length := by
  induction l generalizing n with
  | nil => cases hp
  | cons a as ih =>
    rcases List.mem_cons.mp hp with rfl | hp2
    · simp
    · have := ih hp2
      simp only [List.length_cons]
      omega

theorem numberFrom_pairwise_fst (n : Nat) (l : List α) :
    (numberFrom n l).Pairwise fun p q => p.1 ≠ q.1 := by
  induction l generalizing n with
  | nil => exact List.Pairwise.nil
  | cons a as ih =>
    refine List.Pairwise.cons ?_ (ih (n + 1))
    intro q hq
    have := numberFrom_fst_bounds hq
    simp only
    omega

theorem countP_numberFrom (pred : α → Bool) (n : Nat) (l : List α) :
    (numberFrom n l).countP (fun p => pred p.2) = l.countP pred := by
  induction l generalizing n with
  | nil => rfl
  | cons a as ih => simp [numberFrom, List.countP_cons, ih]

/-- Filtering the concatenation of per-element blocks down to the key of one
listed element recovers exactly that element's block, provided keys are
pairwise distinct and every block row carries its element's key. -/
theorem filter_flatMap_key {α β κ : Type _} [DecidableEq κ]
    (xs : List α) (key : α → κ) (gen : α → List β) (keyOf : β → κ) (x : α)
    (hx : x ∈ xs) (hp : xs.Pairwise fun a b => key a ≠ key b)
    (hgen : ∀ a, ∀ b ∈ gen a, keyOf b = key a) :
    (xs.flatMap gen).filter (fun b => keyOf b == key x) = gen x := by
  induction xs with
  | nil => cases hx
  | cons a as ih =>
    rw [List.flatMap_cons, List.filter_append]
    rcases List.pairwise_cons.mp hp with ⟨hhead, htail⟩
    rcases List.mem_cons.mp hx with rfl | hx2
    · have h1 : (gen x).filter (fun b => keyOf b == key x) = gen x := by
        refine List.filter_eq_self.mpr ?_
        intro b hb
        simp [hgen x b hb]
      have h2 : (as.flatMap gen).filter (fun b => keyOf b == key x) = [] := by
        refine List.filter_eq_nil_iff.mpr ?_
        intro b hb
        obtain ⟨a2, ha2, hb2⟩ := List.mem_flatMap.mp hb
        have hne : key x ≠ key a2 := hhead a2 ha2
        simp [hgen a2 b hb2]
        exact fun heq => hne heq.symm
      rw [h1, h2, List.append_nil]
    · have hne : key a ≠ key x := hhead x hx2
      have h1 : (gen a).filter (fun b => keyOf b == key x) = [] := by
        refine List.filter_eq_nil_iff.mpr ?_
        intro b hb
        simp [hgen a b hb]
        exact hne
      rw [h1, List.nil_append]
      exact ih hx2 htail

theorem mem_insertLe {le : α → α → Bool} {a x : α} {l : List α} :
    x ∈ insertLe le a l ↔ x = a ∨ x ∈ l := by
  induction l with
  | nil => simp [insertLe]
  | cons b bs ih =>
    simp only [insertLe]
    by_cases h : le a b = true
    · rw [if_pos h]
      simp [or_comm, or_left_comm]
    · rw [if_neg h]
      simp only [List.mem_cons, ih]
      tauto

theorem insertLe_perm (le : α → α → Bool) (a : α) (l : List α) :
    List.Perm (insertLe le a l) (a :: l) := by
  induction l with
  | nil => exact List.Perm.refl _
  | cons b bs ih =>
    simp only [insertLe]
    by_cases h : le a b = true
    · rw [if_pos h]
    · rw [if_neg h]
      exact (ih.cons b).trans (List.Perm.swap a b bs)

theorem sortLe_perm (le : α → α → Bool) (l : List α) : List.Perm (sortLe le l) l := by
  induction l with
  | nil => exact List.Perm.refl _
  | cons a as ih => exact (insertLe_perm le a (sortLe le as)).trans (ih.cons a)

theorem mem_sortLe {le : α → α → Bool} {x : α} {l : List α} :
    x ∈ sortLe le l ↔ x ∈ l :=
  (sortLe_perm le l).mem_iff

theorem pairwise_insertLe (le : α → α → Bool)
    (htrans : ∀ a b c, le a b = true → le b c = true → le a c = true)
    (htot : ∀ a b, (le a b || le b a) = true)
    (a : α) {l : List α} (h : l.Pairwise fun x y => le x y = true) :
    (insertLe le a l).Pairwise fun x y => le x y = true := by
  induction l with
  | nil => simp [insertLe]
  | cons b bs ih =>
    simp only [insertLe]
    rcases List.pairwise_cons.mp h with ⟨hb, hbs⟩
    by_cases hab : le a b = true
    · rw [if_pos hab]
      refine List.pairwise_cons.mpr ⟨?_, h⟩
      intro x hx
      rcases List.mem_cons.mp hx with rfl | hx2
      · exact hab
      · exact htrans a b x hab (hb x hx2)
    · rw [if_neg hab]
      have hba : le b a = true := by
        have := htot a b
        rcases Bool.or_eq_true_iff.mp this with h1 | h1
        · exact absurd h1 hab
        · exact h1
      refine List.pairwise_cons.mpr ⟨?_, ih hbs⟩
      intro x hx
      rcases mem_insertLe.mp hx with rfl | hx2
      · exact hba
      · exact hb x hx2

theorem pairwise_sortLe (le : α → α → Bool)
    (htrans : ∀ a b c, le a b = true → le b c = true → le a c = true)
    (htot : ∀ a b, (le a b || le b a) = true) (l : List α) :
    (sortLe le l).Pairwise fun x y => le x y = true := by
  induction l with
  | nil => exact List.Pairwise.nil
  | cons a as ih => exact pairwise_insertLe le htrans htot a ih

/-- Whether an SC raw value counts as an answer: non-`NULL`, non-empty,
not the literal string `NA`. -/
def answeredSC (col : String) (r : RawRow) : Bool :=
  match getCol r col with
  | none => false
  | some s => !(s == "" || s == "NA")

theorem naEncode_ne_NA_iff (col : String) (r : RawRow) :
    (naEncode (getCol r col) != "NA") = answeredSC col r := by
  unfold naEncode answeredSC
  cases getCol r col with
  | none => rfl
  | some s =>
    cases hb : s == "" with
    | true => simp [hb]
    | false => simp [hb, bne]

theorem sqlInterp_no_quote : ∀ {l : List Char}, quoteChar ∉ l → sqlInterp l = some l
  | [], _ => rfl
  | [c], h => by
    have hc : ¬ c = quoteChar := fun heq => h (heq ▸ List.mem_singleton.mpr rfl)
    simp [sqlInterp, hc]
  | c :: c2 :: cs, h => by
    have hc : ¬ c = quoteChar := fun heq => h (heq ▸ List.mem_cons_self c (c2 :: cs))
    have h2 : quoteChar ∉ c2 :: cs := fun hm => h (List.mem_cons_of_mem c hm)
    simp [sqlInterp, hc, sqlInterp_no_quote h2]

theorem sqlLit_no_quote {s : String} (h : quoteChar ∉ s.data) : sqlLit s = some s := by
  unfold sqlLit
  rw [sqlInterp_no_quote h]
  obtain ⟨d⟩ := s
  rfl

theorem dimQuestions_pairwise_id (cfg : Config) :
    (dimQuestions cfg).Pairwise fun a b => a.question_id ≠ b.question_id := by
  unfold dimQuestions
  exact List.Pairwise.map _ (fun a b h => h) (numberFrom_pairwise_fst 1 cfg.schema)

/-- The rows of `fact_responses_sc` for a listed SC question with a data
column are exactly its insert's block: one row per raw data row. -/
theorem fact_responses_sc_block (cfg : Config) {q : Question}
    (hq : q ∈ dimQuestions cfg) (hsc : q.type = "SC")
    (hcol : q.column_name ∈ cfg.dataCols) :
    (fact_responses_sc cfg).filter (fun f => f.question_id == q.question_id) =
      (numberFrom 1 cfg.rows).map (fun p =>
        { respondent_id := p.1
          question_id := q.question_id
          response := naEncode (getCol p.2 q.column_name) }) := by
  have hmem : q ∈ sc_questions cfg :=
    List.mem_filter.mpr ⟨hq, by simp [hsc]⟩
  have hpair : (sc_questions cfg).Pairwise fun a b => a.question_id ≠ b.question_id :=
    List.Pairwise.sublist (List.filter_sublist _) (dimQuestions_pairwise_id cfg)
  have hgen : ∀ (a : Question), ∀ (f : FactRow), f ∈
      (if a.column_name ∈ cfg.dataCols then
        (numberFrom 1 cfg.rows).map (fun p =>
          ({ respondent_id := p.1
             question_id := a.question_id
             response := naEncode (getCol p.2 a.column_name) } : FactRow))
      else []) →
      f.question_id = a.question_id := by
    intro a f hf
    by_cases hc : a.column_name ∈ cfg.dataCols
    · rw [if_pos hc] at hf
      obtain ⟨p, _, rfl⟩ := List.mem_map.mp hf
      rfl
    · rw [if_neg hc] at hf
      cases hf
  have := filter_flatMap_key (sc_questions cfg) (fun a => a.question_id) _
    (fun (f : FactRow) => f.question_id) q hmem hpair hgen
  unfold fact_responses_sc
  rw [this, if_pos hcol]

/-- The rows of `fact_responses_mc` for a listed MC question with a data
column are exactly its insert's block. -/
theorem fact_responses_mc_block (cfg : Config) {q : Question}
    (hq : q ∈ dimQuestions cfg) (hmc : q.type = "MC")
    (hcol : q.column_name ∈ cfg.dataCols) :
    (fact_responses_mc cfg).filter (fun f => f.question_id == q.question_id) =
      (numberFrom 1 (mcNonNull cfg q.column_name)).flatMap (fun p =>
        (stringSplit p.2 semicolonChar).map fun piece =>
          { respondent_id := p.1
            question_id := q.question_id
            response := piece }) := by
  have hmem : q ∈ mc_questions cfg :=
    List.mem_filter.mpr ⟨hq, by simp [hmc]⟩
  have hpair : (mc_questions cfg).Pairwise fun a b => a.question_id ≠ b.question_id :=
    List.Pairwise.sublist (List.filter_sublist _) (dimQuestions_pairwise_id cfg)
  have hgen : ∀ (a : Question), ∀ (f : FactRow), f ∈
      (if a.column_name ∈ cfg.dataCols then
        (numberFrom 1 (mcNonNull cfg a.column_name)).flatMap (fun p =>
          (stringSplit p.2 semicolonChar).map fun piece =>
            ({ respondent_id := p.1
               question_id := a.question_id
               response := piece } : FactRow))
      else []) →
      f.question_id = a.question_id := by
    intro a f hf
    by_cases hc : a.column_name ∈ cfg.dataCols
    · rw [if_pos hc] at hf
      obtain ⟨p, _, hf2⟩ := List.mem_flatMap.mp hf
      obtain ⟨piece, _, rfl⟩ := List.mem_map.mp hf2
      rfl
    · rw [if_neg hc] at hf
      cases hf
  have := filter_flatMap_key (mc_questions cfg) (fun a => a.question_id) _
    (fun (f : FactRow) => f.question_id) q hmem hpair hgen
  unfold fact_responses_mc
  rw [this, if_pos hcol]

/-- Within an MC question's block, the rows with a given (post-filter)
respondent number are exactly the split pieces of that survivor's value. -/
theorem fact_responses_mc_respondent_block (cfg : Config) {q : Question}
    (hq : q ∈ dimQuestions cfg) (hmc : q.type = "MC")
    (hcol : q.column_name ∈ cfg.dataCols) {p : Nat × String}
    (hp : p ∈ numberFrom 1 (mcNonNull cfg q.column_name)) :
    (fact_responses_mc cfg).filter
        (fun f => f.question_id == q.question_id && f.respondent_id == p.1) =
      (stringSplit p.2 semicolonChar).map (fun piece =>
        { respondent_id := p.1
          question_id := q.question_id
          response := piece }) := by
  have hsplit : (fact_responses_mc cfg).filter
      (fun f => f.question_id == q.question_id && f.respondent_id == p.1) =
      ((fact_responses_mc cfg).filter
        (fun f => f.question_id == q.question_id)).filter
        (fun f => f.respondent_id == p.1) := by
    rw [List.filter_filter]
    congr 1
    funext f
    rw [Bool.and_comm]
  rw [hsplit, fact_responses_mc_block cfg hq hmc hcol]
  have hgen : ∀ (a : Nat × String), ∀ (f : FactRow), f ∈
      ((stringSplit a.2 semicolonChar).map fun piece =>
        ({ respondent_id := a.1
           question_id := q.question_id
           response := piece } : FactRow)) →
      f.respondent_id = a.1 := by
    intro a f hf
    obtain ⟨piece, _, rfl⟩ := List.mem_map.mp hf
    rfl
  exact filter_flatMap_key (numberFrom 1 (mcNonNull cfg q.column_name))
    Prod.fst _ (fun (f : FactRow) => f.respondent_id) p hp
    (numberFrom_pairwise_fst 1 (mcNonNull cfg q.column_name)) hgen

/-- Sum of the reported percentages of a distribution result. -/
def sumPct (l : List DistRow) : ℚ :=
  (l.map (·.percentage)).sum

theorem distRows_pairwise (rows denomRows : List FactRow) :
    (distRows rows denomRows).Pairwise fun a b => b.count ≤ a.count := by
  have h := pairwise_sortLe
    (fun a b : DistRow => decide (b.count ≤ a.count))
    (fun a b c hab hbc => by
      simp only [decide_eq_true_eq] at *
      omega)
    (fun a b => by
      by_cases h : b.count ≤ a.count
      · simp [h]
      · simp only [decide_eq_true_eq]
        simp only [h]
        simp
        omega)
    ((rows.map (·.response)).dedup.map fun v =>
      { option := v
        count := (rows.map (·.response)).count v
        percentage := Rat.divInt (((rows.map (·.response)).count v : Int) * 100)
          (denomRows.length : Int) })
  exact (h.imp fun hab => of_decide_eq_true hab)

theorem mem_distRows {rows denomRows : List FactRow} {r : DistRow} :
    r ∈ distRows rows denomRows ↔
      ∃ v ∈ (rows.map (·.response)).dedup,
        r = { option := v
              count := (rows.map (·.response)).count v
              percentage := Rat.divInt (((rows.map (·.response)).count v : Int) * 100)
                (denomRows.length : Int) } := by
  unfold distRows
  rw [mem_sortLe, List.mem_map]
  constructor
  · rintro ⟨v, hv, rfl⟩
    exact ⟨v, hv, rfl⟩
  · rintro ⟨v, hv, rfl⟩
    exact ⟨v, hv, rfl⟩

theorem distRows_percentage {rows denomRows : List FactRow} {r : DistRow}
    (hr : r ∈ distRows rows denomRows) :
    r.percentage = (r.count : ℚ) * 100 / (denomRows.length : ℚ) := by
  obtain ⟨v, _, rfl⟩ := mem_distRows.mp hr
  rw [Rat.divInt_eq_div]
  push_cast
  ring

theorem sumPct_distRows_self {rows : List FactRow} (hne : rows ≠ []) :
    sumPct (distRows rows rows) = 100 := by
  have hD : ((rows.length : ℚ)) ≠ 0 := by
    simp only [ne_eq, Nat.cast_eq_zero, List.length_eq_zero]
    exact hne
  unfold sumPct distRows
  have hperm := (sortLe_perm (fun a b : DistRow => decide (b.count ≤ a.count))
    ((rows.map (·.response)).dedup.map fun v =>
      { option := v
        count := (rows.map (·.response)).count v
        percentage := Rat.divInt (((rows.map (·.response)).count v : Int) * 100)
          (rows.length : Int) })).map (·.percentage)
  rw [hperm.sum_eq, List.map_map]
  have heach : ∀ v : String,
      ((fun (r : DistRow) => r.percentage) ∘ fun v =>
        ({ option := v
           count := (rows.map (·.response)).count v
           percentage := Rat.divInt (((rows.map (·.response)).count v : Int) * 100)
             (rows.length : Int) } : DistRow)) v
      = ((((rows.map (·.response)).count v : ℚ))) * (100 / (rows.length : ℚ)) := by
    intro v
    simp only [Function.comp]
    rw [Rat.divInt_eq_div]
    push_cast
    ring
  rw [List.map_congr_left fun v _ => heach v]
  rw [List.sum_map_mul_right]
  have hcast : ((rows.map (·.response)).dedup.map
      fun v => (((rows.map (·.response)).count v : ℚ))).sum
      = (((rows.map (·.response)).dedup.map
          fun v => (rows.map (·.response)).count v).sum : ℚ) := by
    rw [Nat.cast_list_sum, List.map_map]
    rfl
  rw [hcast, List.sum_map_count_dedup_eq_length, List.length_map]
  field_simp

theorem numberFrom_length (n : Nat) (l : List α) :
    (numberFrom n l).length = l.length := by
  induction l generalizing n with
  | nil => rfl
  | cons a as ih => simp [numberFrom, ih]

/-- The number of non-`NULL`, non-empty, non-`NA` values of a column across
all raw rows: the count of respondents who answered an SC question. -/
def answeredCount (cfg : Config) (col : String) : Nat :=
  (cfg.rows.filter (answeredSC col)).length

/-- The non-`NA` SC fact rows of a question are in bijection with the raw
rows whose value counts as an answer. -/
theorem sc_nonNA_length (cfg : Config) {q : Question}
    (hq : q ∈ dimQuestions cfg) (hsc : q.type = "SC")
    (hcol : q.column_name ∈ cfg.dataCols) :
    ((fact_responses_sc cfg).filter
        (fun f => f.question_id == q.question_id && f.response != "NA")).length
      = answeredCount cfg q.column_name := by
  have hcomm : (fun (f : FactRow) => f.question_id == q.question_id && f.response != "NA")
      = fun f => f.response != "NA" && (f.question_id == q.question_id) := by
    funext f
    rw [Bool.and_comm]
  rw [hcomm, ← List.filter_filter, fact_responses_sc_block cfg hq hsc hcol,
    List.filter_map, List.length_map]
  unfold answeredCount
  rw [← List.countP_eq_length_filter, ← List.countP_eq_length_filter]
  have hpred : ((fun (f : FactRow) => f.response != "NA") ∘ fun p =>
      ({ respondent_id := p.1
         question_id := q.question_id
         response := naEncode (getCol p.2 q.column_name) } : FactRow))
      = fun (p : Nat × RawRow) => naEncode (getCol p.2 q.column_name) != "NA" := rfl
  rw [hpred, countP_numberFrom (fun r => naEncode (getCol r q.column_name) != "NA")
    1 cfg.rows]
  congr 1
  funext r
  exact naEncode_ne_NA_iff q.column_name r

/-! ### The claims -/

/-- A shared concrete survey used by witnesses: one SC question `Q`, one MC
question `M`, four respondents covering answered, `NULL`, empty and
multi-piece values. -/
def cfgW : Config :=
  { schema := [⟨"Q", "Question one", "SC"⟩, ⟨"M", "Multi one", "MC"⟩]
    dataCols := ["Q", "M"]
    rows := [[("Q", some "Remote"), ("M", some "Python;Go;NA")],
             [("Q", none), ("M", none)],
             [("Q", some ""), ("M", some "Python; Go")],
             [("Q", some "NA"), ("M", some "Go")]] }

/-- The SC question of `cfgW` as a `dim_questions` row. -/
def qW : Question := ⟨1, "Q", "Question one", "SC"⟩

/-- The MC question of `cfgW` as a `dim_questions` row. -/
def qWM : Question := ⟨2, "M", "Multi one", "MC"⟩

/-- One SC question, raw values `Remote`, `NULL`, empty and literal `NA`. -/
def cfgC1 : Config :=
  { schema := [⟨"Q", "Question one", "SC"⟩]
    dataCols := ["Q"]
    rows := [[("Q", some "Remote")], [("Q", none)], [("Q", some "")],
             [("Q", some "NA")]] }

/-- C1 counterexample: in `cfgC1` only one raw value (`Remote`) is non-null,
non-empty and non-`NA`, yet the SC fact table holds one row for each of the
four raw rows — the `NULL` respondent included, stored with the sentinel
response `NA` — so the fact-row count does not equal the answered count. -/
theorem claimC1_counterexample :
    ¬ (((fact_responses_sc cfgC1).filter
          (fun f => f.question_id == (1 : Nat))).length = answeredCount cfgC1 "Q") ∧
    ({ respondent_id := 2, question_id := 1, response := "NA" } : FactRow)
      ∈ fact_responses_sc cfgC1 := by
  decide

/-- C1 (amended): for every SC question whose column exists in the raw data,
the fact table holds exactly one row per raw respondent row, with `NULL` and
empty values stored as the sentinel answer `NA` and other values stored
directly; consequently the number of fact rows whose answer is not `NA`
equals the number of non-null, non-empty, non-`NA` values in that column. -/
theorem claimC1_amended (cfg : Config) (q : Question)
    (hq : q ∈ dimQuestions cfg) (hsc : q.type = "SC")
    (hcol : q.column_name ∈ cfg.dataCols) :
    ((fact_responses_sc cfg).filter (fun f => f.question_id == q.question_id) =
      (numberFrom 1 cfg.rows).map fun p =>
        { respondent_id := p.1
          question_id := q.question_id
          response := naEncode (getCol p.2 q.column_name) }) ∧
    ((fact_responses_sc cfg).filter
        (fun f => f.question_id == q.question_id)).length = cfg.rows.length ∧
    ((fact_responses_sc cfg).filter
        (fun f => f.question_id == q.question_id && f.response != "NA")).length
      = answeredCount cfg q.column_name := by
  refine ⟨fact_responses_sc_block cfg hq hsc hcol, ?_, sc_nonNA_length cfg hq hsc hcol⟩
  rw [fact_responses_sc_block cfg hq hsc hcol, List.length_map, numberFrom_length]

theorem claimC1_amended_witness :
    (qW ∈ dimQuestions cfgW ∧ qW.type = "SC" ∧ qW.column_name ∈ cfgW.dataCols) ∧
    (((fact_responses_sc cfgW).filter (fun f => f.question_id == qW.question_id) =
      (numberFrom 1 cfgW.rows).map fun p =>
        { respondent_id := p.1
          question_id := qW.question_id
          response := naEncode (getCol p.2 qW.column_name) }) ∧
    ((fact_responses_sc cfgW).filter
        (fun f => f.question_id == qW.question_id)).length = cfgW.rows.length ∧
    ((fact_responses_sc cfgW).filter
        (fun f => f.question_id == qW.question_id && f.response != "NA")).length
      = answeredCount cfgW qW.column_name) :=
  ⟨⟨by decide, by decide, by decide⟩,
    claimC1_amended cfgW qW (by decide) (by decide) (by decide)⟩

/-- Whitespace trimming over the character list (kernel-reducible model of
Python/SQL `trim`). -/
def trimChars (l : List Char) : List Char :=
  ((l.dropWhile Char.isWhitespace).reverse.dropWhile Char.isWhitespace).reverse

/-- Trim a string. -/
def strTrim (s : String) : String :=
  String.mk (trimChars s.data)

/-- The pieces the claim predicts for an MC raw value — following the claim's
words, for comparison with the source's behaviour: split on `;`, trim
whitespace from each piece, discard empty and `NA` pieces. -/
def mcPiecesClaim (s : String) : List String :=
  ((stringSplit s semicolonChar).map strTrim).filter fun p => !(p == "" || p == "NA")

/-- One MC question, one respondent with raw value `Python;Go;NA`. -/
def cfgC2 : Config :=
  { schema := [⟨"M", "Multi one", "MC"⟩]
    dataCols := ["M"]
    rows := [[("M", some "Python;Go;NA")]] }

/-- C2 counterexample: the claim predicts 2 fact rows for raw value
`Python;Go;NA` (the `NA` piece discarded); the source emits 3 rows, the
literal `NA` piece included, because the MC insert never trims nor filters
pieces. -/
theorem claimC2_counterexample :
    ¬ (((fact_responses_mc cfgC2).filter
          (fun f => f.question_id == (1 : Nat) && f.respondent_id == (1 : Nat))).length
        = (mcPiecesClaim "Python;Go;NA").length) ∧
    ({ respondent_id := 1, question_id := 1, response := "NA" } : FactRow)
      ∈ fact_responses_mc cfgC2 := by
  decide

/-- C2 (amended): for every MC question present in the raw data, fact
construction keeps only raw values that are non-`NULL` and non-empty, splits
each on `;` with no whitespace trimming and no discarding of empty or `NA`
pieces, and emits one row per piece; hence the number of MC fact rows for a
surviving respondent (numbered by rank among surviving rows) equals the
total number of `;`-separated pieces of that value. -/
theorem claimC2_amended (cfg : Config) (q : Question)
    (hq : q ∈ dimQuestions cfg) (hmc : q.type = "MC")
    (hcol : q.column_name ∈ cfg.dataCols) :
    ((fact_responses_mc cfg).filter (fun f => f.question_id == q.question_id) =
      (numberFrom 1 (mcNonNull cfg q.column_name)).flatMap fun p =>
        (stringSplit p.2 semicolonChar).map fun piece =>
          { respondent_id := p.1
            question_id := q.question_id
            response := piece }) ∧
    ∀ p ∈ numberFrom 1 (mcNonNull cfg q.column_name),
      ((fact_responses_mc cfg).filter
          (fun f => f.question_id == q.question_id && f.respondent_id == p.1)).length
        = (stringSplit p.2 semicolonChar).length := by
  refine ⟨fact_responses_mc_block cfg hq hmc hcol, ?_⟩
  intro p hp
  rw [fact_responses_mc_respondent_block cfg hq hmc hcol hp, List.length_map]

theorem claimC2_amended_witness :
    (qWM ∈ dimQuestions cfgW ∧ qWM.type = "MC" ∧ qWM.column_name ∈ cfgW.dataCols) ∧
    (((fact_responses_mc cfgW).filter (fun f => f.question_id == qWM.question_id) =
      (numberFrom 1 (mcNonNull cfgW qWM.column_name)).flatMap fun p =>
        (stringSplit p.2 semicolonChar).map fun piece =>
          { respondent_id := p.1
            question_id := qWM.question_id
            response := piece }) ∧
    ∀ p ∈ numberFrom 1 (mcNonNull cfgW qWM.column_name),
      ((fact_responses_mc cfgW).filter
          (fun f => f.question_id == qWM.question_id && f.respondent_id == p.1)).length
        = (stringSplit p.2 semicolonChar).length) :=
  ⟨⟨by decide, by decide, by decide⟩,
    claimC2_amended cfgW qWM (by decide) (by decide) (by decide)⟩

/-- One MC question; the first respondent has a `NULL` value, the second
answered `Python`. -/
def cfgC3 : Config :=
  { schema := [⟨"M", "Multi one", "MC"⟩]
    dataCols := ["M"]
    rows := [[("M", none)], [("M", some "Python")]] }

/-- C3: in `cfgC3` the only MC answer comes from the second respondent
(`dim_respondents` ids `[1, 2]`), yet its fact row is stored with
`respondent_id = 1`, because the MC insert computes `ROW_NUMBER()` over the
rows that survive the `NULL`/empty filter instead of over `so_data`. -/
theorem claimC3_eval :
    (dimRespondents cfgC3).map (·.respondent_id) = [1, 2] ∧
    mcNonNull cfgC3 "M" = ["Python"] ∧
    fact_responses_mc cfgC3 =
      [{ respondent_id := 1, question_id := 1, response := "Python" }] := by
  decide

/-- C4: the star schema contains no answer-option dimension and no
`answer_option_id` anywhere — the four created tables are `dim_questions`,
`dim_respondents`, `fact_responses_sc`, `fact_responses_mc`, and both fact
tables carry the raw answer string in a `response` column. -/
theorem claimC4_eval :
    "dim_answer_options" ∉ star_schema_tables ∧
    "fact_responses" ∉ star_schema_tables ∧
    "answer_option_id" ∉ fact_responses_sc_columns ∧
    "answer_option_id" ∉ fact_responses_mc_columns ∧
    star_schema_tables =
      ["dim_questions", "dim_respondents", "fact_responses_sc",
       "fact_responses_mc"] := by
  decide

/-- C10: for every SC question whose column exists in the raw data (resolved
by name, as the query operations do), the SC fact table holds exactly one row
per raw respondent row — unanswered respondents included, their `NULL` or
empty values stored as the sentinel answer string `NA` — and the sentinel
rows are removed only at query time: neither `get_answer_distribution` nor
`create_respondent_subset` (distribution form) ever reports an `NA` option. -/
theorem claimC10 (cfg : Config) (q : Question)
    (hfind : (dimQuestions cfg).find? (fun p => p.column_name == q.column_name)
      = some q)
    (hsc : q.type = "SC")
    (hcol : q.column_name ∈ cfg.dataCols)
    (hquote : quoteChar ∉ q.column_name.data) :
    ((fact_responses_sc cfg).filter (fun f => f.question_id == q.question_id) =
      (numberFrom 1 cfg.rows).map fun p =>
        { respondent_id := p.1
          question_id := q.question_id
          response := naEncode (getCol p.2 q.column_name) }) ∧
    (∀ l, get_answer_distribution cfg q.column_name = Except.ok l →
      ∀ r ∈ l, r.option ≠ "NA") ∧
    (∀ l, create_respondent_subset cfg q.column_name "" = Except.ok l →
      ∀ r ∈ l, r.option ≠ "NA") := by
  have hq : q ∈ dimQuestions cfg := List.mem_of_find?_eq_some hfind
  have hnoNA : ∀ l, l = distRows
      ((fact_responses_sc cfg).filter fun f =>
        f.question_id == q.question_id && f.response != "NA")
      ((fact_responses_sc cfg).filter fun f =>
        f.question_id == q.question_id && f.response != "NA") →
      ∀ r ∈ l, r.option ≠ "NA" := by
    rintro l rfl r hr
    obtain ⟨v, hv, rfl⟩ := mem_distRows.mp hr
    have hv2 := List.mem_dedup.mp hv
    obtain ⟨f, hf, rfl⟩ := List.mem_map.mp hv2
    have hfm := (List.mem_filter.mp hf).2
    have h2 := ((Bool.and_eq_true _ _).mp hfm).2
    simpa [bne] using h2
  refine ⟨fact_responses_sc_block cfg hq hsc hcol, ?_, ?_⟩
  · intro l hl
    unfold get_answer_distribution at hl
    rw [sqlLit_no_quote hquote] at hl
    simp only [Option.elim_some] at hl
    rw [hfind] at hl
    have htype : (q.type == "SC") = true := by simp [hsc]
    simp only [Option.elim_some, if_pos htype] at hl
    exact hnoNA l (Except.ok.inj hl).symm
  · intro l hl
    unfold create_respondent_subset at hl
    rw [sqlLit_no_quote hquote] at hl
    simp only [Option.elim_some] at hl
    rw [hfind] at hl
    have htype : (q.type == "SC") = true := by simp [hsc]
    simp only [Option.elim_some, if_pos htype,
      if_pos (show (("" : String) == "") = true by decide)] at hl
    exact hnoNA l (Except.ok.inj hl).symm

theorem claimC10_witness :
    ((dimQuestions cfgW).find? (fun p => p.column_name == qW.column_name) = some qW
      ∧ qW.type = "SC" ∧ qW.column_name ∈ cfgW.dataCols
      ∧ quoteChar ∉ qW.column_name.data) ∧
    (((fact_responses_sc cfgW).filter (fun f => f.question_id == qW.question_id) =
      (numberFrom 1 cfgW.rows).map fun p =>
        { respondent_id := p.1
          question_id := qW.question_id
          response := naEncode (getCol p.2 qW.column_name) }) ∧
    (∀ l, get_answer_distribution cfgW qW.column_name = Except.ok l →
      ∀ r ∈ l, r.option ≠ "NA") ∧
    (∀ l, create_respondent_subset cfgW qW.column_name "" = Except.ok l →
      ∀ r ∈ l, r.option ≠ "NA")) :=
  ⟨⟨by decide, by decide, by decide, by decide⟩,
    claimC10 cfgW qW (by decide) (by decide) (by decide) (by decide)⟩

/-- One SC question whose only raw value is `NULL`: no respondent answered. -/
def cfgC5 : Config :=
  { schema := [⟨"Q", "Question one", "SC"⟩]
    dataCols := ["Q"]
    rows := [[("Q", none)]] }

/-- C5 counterexample: for an SC question that no respondent answered,
`get_answer_distribution` returns the empty table, whose percentages sum to
0 — not within ±1 of 100 as the claim asserts for every SC question column. -/
theorem claimC5_counterexample :
    get_answer_distribution cfgC5 "Q" = Except.ok [] ∧
    ¬ (99 ≤ sumPct [] ∧ sumPct [] ≤ 101) := by
  constructor
  · decide
  · decide

/-- C5 (amended): for every question resolved by column name, each SC
percentage uses as denominator the count of non-`NA` SC fact rows for that
question — which, when the column exists in the raw data, is the count of
respondents who answered (each contributing exactly one row) — and when at
least one respondent answered the percentages sum to exactly 100 (hence
within ±1); with no answers the result is empty.  Each MC percentage uses as
denominator the total count of MC fact rows (selection-events, the untrimmed
and `NA` pieces included) for that question.  Both results are ordered by
descending count. -/
theorem claimC5_amended (cfg : Config) (q : Question)
    (hfind : (dimQuestions cfg).find? (fun p => p.column_name == q.column_name)
      = some q)
    (hquote : quoteChar ∉ q.column_name.data) :
    (q.type = "SC" →
      ∃ l, get_answer_distribution cfg q.column_name = Except.ok l ∧
        (∀ r ∈ l, r.percentage = (r.count : ℚ) * 100 /
          ((((fact_responses_sc cfg).filter fun f =>
            f.question_id == q.question_id && f.response != "NA").length : ℚ))) ∧
        (q.column_name ∈ cfg.dataCols →
          ((fact_responses_sc cfg).filter fun f =>
            f.question_id == q.question_id && f.response != "NA").length
            = answeredCount cfg q.column_name) ∧
        (l ≠ [] → sumPct l = 100 ∧ 99 ≤ sumPct l ∧ sumPct l ≤ 101) ∧
        l.Pairwise (fun a b => b.count ≤ a.count)) ∧
    (q.type = "MC" →
      ∃ l, get_answer_distribution cfg q.column_name = Except.ok l ∧
        (∀ r ∈ l, r.percentage = (r.count : ℚ) * 100 /
          ((((fact_responses_mc cfg).filter fun f =>
            f.question_id == q.question_id).length : ℚ))) ∧
        l.Pairwise (fun a b => b.count ≤ a.count)) := by
  have hq : q ∈ dimQuestions cfg := List.mem_of_find?_eq_some hfind
  constructor
  · intro hsc
    have htype : (q.type == "SC") = true := by simp [hsc]
    have heq : get_answer_distribution cfg q.column_name =
        Except.ok (distRows
          ((fact_responses_sc cfg).filter fun f =>
            f.question_id == q.question_id && f.response != "NA")
          ((fact_responses_sc cfg).filter fun f =>
            f.question_id == q.question_id && f.response != "NA")) := by
      unfold get_answer_distribution
      rw [sqlLit_no_quote hquote]
      simp only [Option.elim_some]
      rw [hfind]
      simp only [Option.elim_some, if_pos htype]
    refine ⟨_, heq, ?_, ?_, ?_, ?_⟩
    · intro r hr
      exact distRows_percentage hr
    · intro hcol
      exact sc_nonNA_length cfg hq hsc hcol
    · intro hne
      have hrows : ((fact_responses_sc cfg).filter fun f =>
          f.question_id == q.question_id && f.response != "NA") ≠ [] := by
        intro h0
        apply hne
        rw [h0]
        rfl
      have hsum := sumPct_distRows_self hrows
      refine ⟨hsum, ?_, ?_⟩
      · rw [hsum]
        norm_num
      · rw [hsum]
        norm_num
    · exact distRows_pairwise _ _
  · intro hmc
    have htypeF : ¬ ((q.type == "SC") = true) := by simp [hmc]
    have htype : (q.type == "MC") = true := by simp [hmc]
    have heq : get_answer_distribution cfg q.column_name =
        Except.ok (distRows
          ((fact_responses_mc cfg).filter fun f =>
            f.question_id == q.question_id)
          ((fact_responses_mc cfg).filter fun f =>
            f.question_id == q.question_id)) := by
      unfold get_answer_distribution
      rw [sqlLit_no_quote hquote]
      simp only [Option.elim_some]
      rw [hfind]
      simp only [Option.elim_some, if_neg htypeF, if_pos htype]
    refine ⟨_, heq, ?_, ?_⟩
    · intro r hr
      exact distRows_percentage hr
    · exact distRows_pairwise _ _

theorem claimC5_amended_witness :
    ((dimQuestions cfgW).find? (fun p => p.column_name == qW.column_name) = some qW
      ∧ quoteChar ∉ qW.column_name.data) ∧
    ((qW.type = "SC" →
      ∃ l, get_answer_distribution cfgW qW.column_name = Except.ok l ∧
        (∀ r ∈ l, r.percentage = (r.count : ℚ) * 100 /
          ((((fact_responses_sc cfgW).filter fun f =>
            f.question_id == qW.question_id && f.response != "NA").length : ℚ))) ∧
        (qW.column_name ∈ cfgW.dataCols →
          ((fact_responses_sc cfgW).filter fun f =>
            f.question_id == qW.question_id && f.response != "NA").length
            = answeredCount cfgW qW.column_name) ∧
        (l ≠ [] → sumPct l = 100 ∧ 99 ≤ sumPct l ∧ sumPct l ≤ 101) ∧
        l.Pairwise (fun a b => b.count ≤ a.count)) ∧
    (qW.type = "MC" →
      ∃ l, get_answer_distribution cfgW qW.column_name = Except.ok l ∧
        (∀ r ∈ l, r.percentage = (r.count : ℚ) * 100 /
          ((((fact_responses_mc cfgW).filter fun f =>
            f.question_id == qW.question_id).length : ℚ))) ∧
        l.Pairwise (fun a b => b.count ≤ a.count))) :=
  ⟨⟨by decide, by decide⟩,
    claimC5_amended cfgW qW (by decide) (by decide)⟩

/-- One SC question; two respondents answered `A`, one did not answer. -/
def cfgC6 : Config :=
  { schema := [⟨"Q", "Question one", "SC"⟩]
    dataCols := ["Q"]
    rows := [[("Q", some "A")], [("Q", some "A")], [("Q", none)]] }

/-- C6: the respondent-subset operation does not return respondent rows at
all — for the two respondents of `cfgC6` who answered `A` it returns one
aggregate row `(option, count, percentage)`, its result columns do not
include `respondent_id` or any demographic attribute, and an unknown column
yields an empty result (that part of the claim holds). -/
theorem claimC6_eval :
    create_respondent_subset cfgC6 "Q" "A" =
      Except.ok [{ option := "A", count := 2, percentage := 100 }] ∧
    "respondent_id" ∉ distribution_columns ∧
    distribution_columns = ["option", "count", "percentage"] ∧
    create_respondent_subset cfgC6 "Zzz" "A" = Except.ok [] := by
  decide

/-- Two questions in schema order `B`, `A`, so that `question_id` order and
alphabetical column order differ. -/
def cfgC7 : Config :=
  { schema := [⟨"B", "Bravo question", "SC"⟩, ⟨"A", "Alpha question", "MC"⟩]
    dataCols := []
    rows := [] }

/-- C7: `get_survey_structure` (default sort) does return all questions in
`question_id` order (`B` before `A`), but its rows carry only
`(column, question_text, type)` — there is no `question_id` and no
`num_answer_options` column, hence no distinct-answer count. -/
theorem claimC7_eval :
    get_survey_structure cfgC7 =
      [{ column := "B", question_text := "Bravo question", type := "SC" },
       { column := "A", question_text := "Alpha question", type := "MC" }] ∧
    "question_id" ∉ get_survey_structure_columns ∧
    "num_answer_options" ∉ get_survey_structure_columns := by
  decide

/-- Two questions whose `question_id` order (`Zeta` then `Alpha`) is the
reverse of their column-name order. -/
def cfgC8 : Config :=
  { schema := [⟨"Zeta", "about cats", "SC"⟩, ⟨"Alpha", "about dogs", "SC"⟩]
    dataCols := []
    rows := [] }

/-- C8 counterexample: searching `about` matches both questions; the result
is ordered by column name (`Alpha` before `Zeta`) although `Zeta` has the
smaller `question_id`, and the result carries a `match_type` column but no
`answer_value` column — refuting the claimed shape and ordering. -/
theorem claimC8_counterexample :
    search_questions cfgC8 "about" = Except.ok
      [{ column := "Alpha", question_text := "about dogs", type := "SC",
         match_type := "question" },
       { column := "Zeta", question_text := "about cats", type := "SC",
         match_type := "question" }] ∧
    (dimQuestions cfgC8).map (fun q => (q.question_id, q.column_name))
      = [(1, "Zeta"), (2, "Alpha")] ∧
    "answer_value" ∉ search_questions_columns := by
  decide

/-- C8 (amended): for every search term without a lone quote, the result is
the deduplicated union of three row sets — questions whose text or column
name matches `ILIKE '%term%'` (with `match_type` `question`), and questions
having some stored SC or MC response matching the pattern, sentinel `NA`
rows included (with `match_type` `answer`) — carrying no answer value and
ordered by column name. -/
theorem claimC8_amended (cfg : Config) (term : String)
    (hquote : quoteChar ∉ term.data) :
    ∃ l, search_questions cfg term = Except.ok l ∧
      (∀ r : SearchRow, r ∈ l ↔
        ((∃ q ∈ dimQuestions cfg,
            (ilike q.question_text (likePat term)
              || ilike q.column_name (likePat term)) = true ∧
            r = searchRowOf q "question") ∨
         (∃ q ∈ dimQuestions cfg,
            ((fact_responses_sc cfg).any fun f =>
              f.question_id == q.question_id
                && ilike f.response (likePat term)) = true ∧
            r = searchRowOf q "answer") ∨
         (∃ q ∈ dimQuestions cfg,
            ((fact_responses_mc cfg).any fun f =>
              f.question_id == q.question_id
                && ilike f.response (likePat term)) = true ∧
            r = searchRowOf q "answer"))) ∧
      l.Pairwise (fun a b => a.column.data ≤ b.column.data) ∧
      l.Nodup ∧
      "answer_value" ∉ search_questions_columns := by
  have heq : search_questions cfg term = Except.ok (sortLe
      (fun a b => decide (a.column.data ≤ b.column.data))
      (searchQuestionRows cfg (likePat term) ++
        searchScAnswerRows cfg (likePat term) ++
        searchMcAnswerRows cfg (likePat term)).dedup) := by
    unfold search_questions
    rw [sqlLit_no_quote hquote]
    simp only [Option.elim_some]
  refine ⟨_, heq, ?_, ?_, ?_, by decide⟩
  · intro r
    rw [mem_sortLe, List.mem_dedup, List.mem_append, List.mem_append]
    simp only [searchQuestionRows, searchScAnswerRows, searchMcAnswerRows,
      List.mem_map, List.mem_filter]
    constructor
    · rintro ((⟨qq, ⟨hqm, hqp⟩, rfl⟩ | ⟨qq, ⟨hqm, hqp⟩, rfl⟩) | ⟨qq, ⟨hqm, hqp⟩, rfl⟩)
      · exact Or.inl ⟨qq, hqm, hqp, rfl⟩
      · exact Or.inr (Or.inl ⟨qq, hqm, hqp, rfl⟩)
      · exact Or.inr (Or.inr ⟨qq, hqm, hqp, rfl⟩)
    · rintro (⟨qq, hqm, hqp, rfl⟩ | ⟨qq, hqm, hqp, rfl⟩ | ⟨qq, hqm, hqp, rfl⟩)
      · exact Or.inl (Or.inl ⟨qq, ⟨hqm, hqp⟩, rfl⟩)
      · exact Or.inl (Or.inr ⟨qq, ⟨hqm, hqp⟩, rfl⟩)
      · exact Or.inr ⟨qq, ⟨hqm, hqp⟩, rfl⟩
  · have h := pairwise_sortLe
      (fun a b : SearchRow => decide (a.column.data ≤ b.column.data))
      (fun a b c hab hbc => by
        simp only [decide_eq_true_eq] at *
        exact le_trans hab hbc)
      (fun a b => by
        rcases le_total a.column.data b.column.data with h | h <;> simp [h])
      ((searchQuestionRows cfg (likePat term) ++
        searchScAnswerRows cfg (likePat term) ++
        searchMcAnswerRows cfg (likePat term)).dedup)
    exact h.imp fun hab => of_decide_eq_true hab
  · exact ((sortLe_perm _ _).nodup_iff).mpr (List.nodup_dedup _)

theorem claimC8_amended_witness :
    (quoteChar ∉ ("one" : String).data) ∧
    (∃ l, search_questions cfgW "one" = Except.ok l ∧
      (∀ r : SearchRow, r ∈ l ↔
        ((∃ q ∈ dimQuestions cfgW,
            (ilike q.question_text (likePat "one")
              || ilike q.column_name (likePat "one")) = true ∧
            r = searchRowOf q "question") ∨
         (∃ q ∈ dimQuestions cfgW,
            ((fact_responses_sc cfgW).any fun f =>
              f.question_id == q.question_id
                && ilike f.response (likePat "one")) = true ∧
            r = searchRowOf q "answer") ∨
         (∃ q ∈ dimQuestions cfgW,
            ((fact_responses_mc cfgW).any fun f =>
              f.question_id == q.question_id
                && ilike f.response (likePat "one")) = true ∧
            r = searchRowOf q "answer"))) ∧
      l.Pairwise (fun a b => a.column.data ≤ b.column.data) ∧
      l.Nodup ∧
      "answer_value" ∉ search_questions_columns) :=
  ⟨by decide, claimC8_amended cfgW "one" (by decide)⟩

/-- A search term containing a single quote, as a user would type `it's`. -/
def c9Term : String := "it" ++ quoteChar.toString ++ "s"

/-- C9: a search term containing a lone single quote breaks the interpolated
SQL literal and the query engine raises (modelled as `Except.error`), so
`search_questions` does not return a table for every term; quote-free terms,
including the empty string and unmatched terms, do return tables (an empty
one when nothing matches). -/
theorem claimC9_eval :
    search_questions cfgW c9Term = Except.error "Parser Error" ∧
    search_questions cfgW "zzz unmatched" = Except.ok [] ∧
    search_questions cfgW "" = Except.ok
      [{ column := "M", question_text := "Multi one", type := "MC",
         match_type := "question" },
       { column := "M", question_text := "Multi one", type := "MC",
         match_type := "answer" },
       { column := "Q", question_text := "Question one", type := "SC",
         match_type := "question" },
       { column := "Q", question_text := "Question one", type := "SC",
         match_type := "answer" }] := by
  decide

end AirData
